import Mathlib

/-!
# Verification of the cancan CAN-trace replay tool

Shallow embedding of `src/main.go` (package `main`): the CSV trace parser
(`parseCSV`, `parseCANFrame`) and the replay scheduler (`replayFrames`),
together with theorems settling the specification claims.

Conventions of the embedding:

* Go machine integers become `Nat` with explicit range checks / `% 2^w`
  where the code relies on them (`strconv.ParseUint` bit sizes, `uint64`
  subtraction wrap in the delay computation, `int64` wrap in the
  `time.Duration` conversion).
* A Go function returning `(T, error)` becomes `GoResult T`: `.ok` for a
  nil error, `.fail msg` for a non-nil error.  A Go runtime panic
  (out-of-range slice index) is `.crash msg` and propagates.
* Strings are Lean `String`s; the few `strings` package helpers used by
  the code are re-implemented over `String.data` below with Go semantics.
* `log.Printf` warnings of skipped rows become an explicit list of
  `(row number, reason)` pairs returned next to the frames.
* The bus transport (`bus.Publish`) becomes a function
  `sendOk : pass → index → Bool`; each `Publish` call is recorded as a
  `Tx` event carrying the `time.Duration` (nanoseconds) slept before it.
  The unbounded `for { ... }` loop of `replayFrames` is given fuel
  (a maximum number of passes); running out of fuel is the `.fuelOut`
  outcome, distinct from the code's own outcomes.
-/

set_option autoImplicit false

/-- Result of running a piece of Go code: a runtime panic (`crash`),
a returned non-nil `error` (`fail`), or a normal value. -/
inductive GoResult (α : Type) where
  | crash (msg : String)
  | fail (msg : String)
  | ok (a : α)
  deriving DecidableEq, Repr

/-- Sequencing of Go statements that early-return on a non-nil error and
let panics propagate. -/
def GoResult.bind {α β : Type} : GoResult α → (α → GoResult β) → GoResult β
  | .crash m, _ => .crash m
  | .fail m, _ => .fail m
  | .ok a, f => f a

/-- Go slice indexing `record[i]`: out of range is a runtime panic. -/
def getCol (record : List String) (i : Nat) : GoResult String :=
  match record.get? i with
  | none => .crash "index out of range"
  | some s => .ok s

/-- Lift an optional parse result into `GoResult`, failing with `msg`
when the parse failed. -/
def goOpt {α : Type} (msg : String) : Option α → GoResult α
  | none => .fail msg
  | some a => .ok a

/-- The `CANFrame` struct of `main.go`.  `Timestamp` is a `uint64` value,
`ID` a `uint32` value, `Length` a `uint8` value; the parser's range checks
keep them inside those ranges.  `Data` is the `[]byte` slice. -/
structure CANFrame where
  Timestamp : Nat
  ID : Nat
  Extended : Bool
  Data : List Nat
  Length : Nat
  deriving DecidableEq, Repr

/-! ## Go `strings` / `strconv` / `encoding-hex` helpers -/

/-- `unicode.IsSpace` restricted to the characters Go's `strings.TrimSpace`
strips (ASCII whitespace plus NEL and NBSP). -/
def isGoSpace (c : Char) : Bool :=
  c = ' ' || c = '\t' || c = '\n' || c = '\r' ||
  c = Char.ofNat 11 || c = Char.ofNat 12 ||
  c = Char.ofNat 0x85 || c = Char.ofNat 0xA0

/-- `strings.TrimSpace`. -/
def goTrim (s : String) : String :=
  String.mk (((s.data.dropWhile isGoSpace).reverse.dropWhile isGoSpace).reverse)

/-- `strings.ToLower` (ASCII case folding, which is all the code needs). -/
def lowerStr (s : String) : String :=
  String.mk (s.data.map Char.toLower)

/-- `strings.TrimPrefix(s, "0x")`: drop one leading `"0x"` if present. -/
def trimPrefix0x (s : String) : String :=
  match s.data with
  | '0' :: 'x' :: rest => String.mk rest
  | _ => s

/-- `strings.TrimLeft(s, "0")`: drop all leading `'0'` characters. -/
def trimLeftZeros (s : String) : String :=
  String.mk (s.data.dropWhile (· = '0'))

/-- `strings.TrimSuffix(s, ",")`: drop one trailing comma if present. -/
def trimSuffixComma (s : String) : String :=
  match s.data.reverse with
  | ',' :: rest => String.mk rest.reverse
  | _ => s

/-- Decimal digit value, as used by `strconv.ParseUint` with base 10. -/
def digit10 (c : Char) : Option Nat :=
  if '0' ≤ c ∧ c ≤ '9' then some (c.toNat - '0'.toNat) else none

/-- Hexadecimal digit value (both cases), as used by `strconv.ParseUint`
with base 16 and by `encoding/hex`. -/
def digit16 (c : Char) : Option Nat :=
  if '0' ≤ c ∧ c ≤ '9' then some (c.toNat - '0'.toNat)
  else if 'a' ≤ c ∧ c ≤ 'f' then some (c.toNat - 'a'.toNat + 10)
  else if 'A' ≤ c ∧ c ≤ 'F' then some (c.toNat - 'A'.toNat + 10)
  else none

/-- Digit-accumulation loop of `strconv.ParseUint`. -/
def parseUintLoop (digit : Char → Option Nat) (base : Nat) :
    List Char → Nat → Option Nat
  | [], acc => some acc
  | c :: cs, acc =>
    match digit c with
    | none => none
    | some d => parseUintLoop digit base cs (acc * base + d)

/-- `strconv.ParseUint(s, base, bits)` for an explicit base (10 or 16):
no sign, no underscores, no `0x` prefix; empty input, a bad digit, or a
value outside `bits` bits is an error (`none`). -/
def goParseUint (digit : Char → Option Nat) (base bits : Nat) (s : String) :
    Option Nat :=
  if s.data = [] then none
  else
    match parseUintLoop digit base s.data 0 with
    | none => none
    | some v => if v < 2 ^ bits then some v else none

/-- The CAN-identifier normalisation of `parseCANFrame` (main.go lines
72–77): strip an optional `0x` prefix, strip leading zeros (an all-zero
string becomes `"0"`), then `strconv.ParseUint(idStr, 16, 32)`. -/
def parseCANID (s : String) : Option Nat :=
  let s1 := trimPrefix0x s
  let s2 := trimLeftZeros s1
  let s3 := if s2 = "" then "0" else s2
  goParseUint digit16 16 32 s3

/-- `hex.DecodeString` followed by the `len(b) == 1` check of main.go
line 100: succeeds exactly on two hex digits, giving that byte. -/
def hexDecode1 (s : String) : Option Nat :=
  match s.data with
  | [c1, c2] =>
    match digit16 c1, digit16 c2 with
    | some h, some l => some (16 * h + l)
    | _, _ => none
  | _ => none

/-! ## The parser (`parseCANFrame`, `parseCSV`) -/

/-- The `D1..D8` loop of `parseCANFrame` (main.go lines 95–104): starting
at payload index `i`, decode `n` further payload columns `record[6+i]`,
`record[6+i+1]`, ….  Indexing past the end of `record` is a Go slice
out-of-range panic (`crash`); a column that does not decode to exactly
one hex byte fails the row naming column `D(i+1)`. -/
def parseDataAux (record : List String) (i : Nat) : Nat → GoResult (List Nat)
  | 0 => .ok []
  | n + 1 =>
    (getCol record (6 + i)).bind fun s =>
    let t := trimSuffixComma (goTrim s)
    (goOpt ("invalid data byte D" ++ toString (i + 1) ++ ": " ++ t)
        (hexDecode1 t)).bind fun b =>
    (parseDataAux record (i + 1) n).bind fun bs =>
    .ok (b :: bs)

/-- `parseCANFrame` (main.go lines 61–107).  Field reads mirror the code:
`record[0]` timestamp (`ParseUint` base 10, 64 bits), `record[1]`
identifier (via `parseCANID`), `record[2]` extended flag (lower-cased
equality with `"true"`), `record[5]` length (`ParseUint` base 10,
8 bits), then the `D1..D8` loop for `min(length, 8)` bytes into a
zero-initialised `Data` slice of `length` bytes. -/
def parseCANFrame (record : List String) : GoResult CANFrame :=
  (getCol record 0).bind fun s0 =>
  (goOpt "invalid timestamp" (goParseUint digit10 10 64 s0)).bind fun ts =>
  (getCol record 1).bind fun s1 =>
  (goOpt "invalid CAN ID" (parseCANID s1)).bind fun v =>
  (getCol record 2).bind fun s2 =>
  (getCol record 5).bind fun s5 =>
  (goOpt "invalid length" (goParseUint digit10 10 8 s5)).bind fun len =>
  (parseDataAux record 0 (min len 8)).bind fun bs =>
  .ok ⟨ts, v, lowerStr s2 == "true",
       bs ++ List.replicate (len - min len 8) 0, len⟩

/-- The data-row loop of `parseCSV` (main.go lines 44–56), processing the
rows after the header; `n` is the 1-based row number of the first row of
the list (the header counts as row 1).  A row with fewer than 12 columns
is skipped with reason `"insufficient columns"`; a row failing
`parseCANFrame` is skipped with that row error; a panic propagates. -/
def processRows : List (List String) → Nat →
    GoResult (List CANFrame × List (Nat × String))
  | [], _ => .ok ([], [])
  | r :: rest, n =>
    if r.length < 12 then
      match processRows rest (n + 1) with
      | .crash m => .crash m
      | .fail m => .fail m
      | .ok (fs, sk) => .ok (fs, (n, "insufficient columns") :: sk)
    else
      match parseCANFrame r with
      | .crash m => .crash m
      | .fail e =>
        match processRows rest (n + 1) with
        | .crash m => .crash m
        | .fail m => .fail m
        | .ok (fs, sk) => .ok (fs, (n, e) :: sk)
      | .ok f =>
        match processRows rest (n + 1) with
        | .crash m => .crash m
        | .fail m => .fail m
        | .ok (fs, sk) => .ok (f :: fs, sk)

/-- `parseCSV` (main.go lines 25–59) after the `csv.Reader` has produced
the record set: fewer than 2 records is the fatal
"empty or has no data rows" error; otherwise the data rows are processed
starting at row number 2. -/
def parseCSV (records : List (List String)) :
    GoResult (List CANFrame × List (Nat × String)) :=
  if records.length < 2 then .fail "CSV file is empty or has no data rows"
  else processRows (records.drop 1) 2

/-! ## The replay scheduler (`replayFrames`) -/

/-- `uint64` subtraction `a - b` with wraparound, as in
`deltaUs := frame.Timestamp - frames[i-1].Timestamp` (main.go line 123). -/
def wrapSub (a b : Nat) : Nat := (2 ^ 64 + a - b) % 2 ^ 64

/-- Reinterpret a `uint64` value as Go's `int64` (`time.Duration`). -/
def i64 (n : Nat) : Int :=
  if n % 2 ^ 64 < 2 ^ 63 then (n % 2 ^ 64 : Nat)
  else (n % 2 ^ 64 : Nat) - (2 ^ 64 : Int)

/-- Wrap an integer into `int64` range, for `int64` multiplication. -/
def i64wrap (z : Int) : Int := (z + 2 ^ 63) % 2 ^ 64 - 2 ^ 63

/-- `time.Duration(deltaUs) * time.Microsecond` (main.go line 124): the
`uint64` microsecond delta reinterpreted as `int64` and multiplied by
1000, with `int64` wraparound; the result is nanoseconds. -/
def goSleepNs (deltaUs : Nat) : Int := i64wrap (i64 deltaUs * 1000)

/-- One call of `bus.Publish` (main.go line 145) together with the
`time.Sleep` that preceded it: the pass number, the 0-based frame index
in the pass, the computed `time.Duration` in nanoseconds (the code sleeps
exactly when it is positive), and the transmitted CAN identifier. -/
structure Tx where
  pass : Nat
  idx : Nat
  delay : Int
  id : Nat
  deriving DecidableEq, Repr

/-- One pass of the inner `for i, frame := range frames` loop (main.go
lines 117–154) under transport `sendOk`: `prev` is the previous frame's
timestamp (unused at `idx = 0`, where the delay is fixed at zero).
Returns the `Publish` calls made and, when one failed, the failing
0-based index and identifier (the error of main.go line 146). -/
def runPass (sendOk : Nat → Bool) (p : Nat) :
    Nat → Nat → List CANFrame → List Tx × Option (Nat × Nat)
  | _, _, [] => ([], none)
  | prev, idx, f :: rest =>
    let d : Int := if idx = 0 then 0 else goSleepNs (wrapSub f.Timestamp prev)
    let tx : Tx := ⟨p, idx, d, f.ID⟩
    if sendOk idx then
      let r := runPass sendOk p f.Timestamp (idx + 1) rest
      (tx :: r.1, r.2)
    else ([tx], some (idx, f.ID))

/-- Outcome of `replayFrames`: normal return (`nil`), the
"no frames to replay" error, the "failed to send frame i (ID: x)" error,
or fuel exhaustion of the model while `loop` keeps the code running. -/
inductive ReplayOutcome where
  | ok
  | noFrames
  | sendFail (idx id : Nat)
  | fuelOut
  deriving DecidableEq, Repr

/-- The outer `for { ... }` loop of `replayFrames` (main.go lines
116–161), with `fuel` bounding the number of passes the model unrolls;
`pass` numbers the passes from 0. -/
def replayLoop (sendOk : Nat → Nat → Bool) (frames : List CANFrame)
    (loop : Bool) : Nat → Nat → List Tx × ReplayOutcome
  | 0, _ => ([], .fuelOut)
  | fuel + 1, pass =>
    match runPass (sendOk pass) pass 0 0 frames with
    | (txs, some (i, id)) => (txs, .sendFail i id)
    | (txs, none) =>
      if loop then
        let r := replayLoop sendOk frames loop fuel (pass + 1)
        (txs ++ r.1, r.2)
      else (txs, .ok)

/-- `replayFrames` (main.go lines 109–164): an empty frame list is the
"no frames to replay" error before any sleep or transmission; otherwise
the pass loop runs. -/
def replayFrames (sendOk : Nat → Nat → Bool) (frames : List CANFrame)
    (loop : Bool) (fuel : Nat) : List Tx × ReplayOutcome :=
  if frames.length = 0 then ([], .noFrames)
  else replayLoop sendOk frames loop fuel 0

/-! ## Helper lemmas -/

@[simp]
theorem GoResult.ok_bind {α β : Type} (a : α) (f : α → GoResult β) :
    (GoResult.ok a).bind f = f a := rfl

@[simp]
theorem GoResult.crash_bind {α β : Type} (m : String) (f : α → GoResult β) :
    (GoResult.crash m).bind f = .crash m := rfl

@[simp]
theorem GoResult.fail_bind {α β : Type} (m : String) (f : α → GoResult β) :
    (GoResult.fail m).bind f = .fail m := rfl

theorem GoResult.bind_eq_ok {α β : Type} {x : GoResult α}
    {f : α → GoResult β} {b : β} :
    x.bind f = .ok b ↔ ∃ a, x = .ok a ∧ f a = .ok b := by
  cases x <;> simp [GoResult.bind]

@[simp]
theorem getCol_eq_ok {record : List String} {i : Nat} {s : String} :
    getCol record i = .ok s ↔ record.get? i = some s := by
  unfold getCol
  cases h : record.get? i <;> simp

@[simp]
theorem goOpt_eq_ok {α : Type} {msg : String} {o : Option α} {a : α} :
    goOpt msg o = .ok a ↔ o = some a := by
  cases o <;> simp [goOpt]

theorem goParseUint_lt {digit : Char → Option Nat} {base bits : Nat}
    {s : String} {v : Nat} (h : goParseUint digit base bits s = some v) :
    v < 2 ^ bits := by
  unfold goParseUint at h
  split at h
  · exact absurd h (by simp)
  · split at h
    · exact absurd h (by simp)
    · split at h
      · cases h; assumption
      · exact absurd h (by simp)

theorem parseDataAux_ok_length {record : List String} :
    ∀ {n i : Nat} {bs : List Nat},
    parseDataAux record i n = .ok bs → bs.length = n := by
  intro n
  induction n with
  | zero => intro i bs h; simp [parseDataAux] at h; simp [← h]
  | succ n ih =>
    intro i bs h
    simp only [parseDataAux, GoResult.bind_eq_ok, getCol_eq_ok,
      goOpt_eq_ok] at h
    obtain ⟨s, _, b, _, bs', hrec, hcons⟩ := h
    cases hcons
    simp [ih hrec]

theorem parseDataAux_ok_get {record : List String} :
    ∀ {n i : Nat} {bs : List Nat},
    parseDataAux record i n = .ok bs → ∀ j, j < n →
    ∃ s b, record.get? (6 + i + j) = some s ∧
      hexDecode1 (trimSuffixComma (goTrim s)) = some b ∧
      bs.get? j = some b := by
  intro n
  induction n with
  | zero => intro i bs _ j hj; exact absurd hj (Nat.not_lt_zero j)
  | succ n ih =>
    intro i bs h j hj
    simp only [parseDataAux, GoResult.bind_eq_ok, getCol_eq_ok,
      goOpt_eq_ok] at h
    obtain ⟨s, hs, b, hb, bs', hrec, hcons⟩ := h
    cases hcons
    cases j with
    | zero => exact ⟨s, b, by simpa using hs, hb, rfl⟩
    | succ j =>
      obtain ⟨s', b', hs', hb', hg'⟩ := ih hrec j (Nat.lt_of_succ_lt_succ hj)
      refine ⟨s', b', ?_, hb', by simpa using hg'⟩
      have : 6 + i + (j + 1) = 6 + (i + 1) + j := by omega
      rw [this]
      exact hs'

/-- The fully successful run of `parseCANFrame`, as one equation. -/
theorem parseCANFrame_eq_ok {record : List String} {s0 s1 s2 s5 : String}
    {ts v len : Nat} {bs : List Nat}
    (h0 : record.get? 0 = some s0)
    (hts : goParseUint digit10 10 64 s0 = some ts)
    (h1 : record.get? 1 = some s1)
    (hid : parseCANID s1 = some v)
    (h2 : record.get? 2 = some s2)
    (h5 : record.get? 5 = some s5)
    (hlen : goParseUint digit10 10 8 s5 = some len)
    (hdata : parseDataAux record 0 (min len 8) = .ok bs) :
    parseCANFrame record =
      .ok ⟨ts, v, lowerStr s2 == "true",
           bs ++ List.replicate (len - min len 8) 0, len⟩ := by
  rw [List.get?_eq_getElem?] at h0 h1 h2 h5
  simp [parseCANFrame, getCol, goOpt, h0, hts, h1, hid, h2, h5, hlen, hdata]

/-- Inversion of a successful `parseCANFrame` run into its stages. -/
theorem parseCANFrame_ok_inv {record : List String} {f : CANFrame}
    (h : parseCANFrame record = .ok f) :
    ∃ s0 s1 s2 s5 ts v len bs,
      record.get? 0 = some s0 ∧
      goParseUint digit10 10 64 s0 = some ts ∧
      record.get? 1 = some s1 ∧
      parseCANID s1 = some v ∧
      record.get? 2 = some s2 ∧
      record.get? 5 = some s5 ∧
      goParseUint digit10 10 8 s5 = some len ∧
      parseDataAux record 0 (min len 8) = .ok bs ∧
      f = ⟨ts, v, lowerStr s2 == "true",
           bs ++ List.replicate (len - min len 8) 0, len⟩ := by
  simp only [parseCANFrame, GoResult.bind_eq_ok, getCol_eq_ok,
    goOpt_eq_ok, GoResult.ok.injEq] at h
  obtain ⟨s0, h0, ts, hts, s1, h1, v, hid, s2, h2, s5, h5, len, hlen,
    bs, hdata, hf⟩ := h
  exact ⟨s0, s1, s2, s5, ts, v, len, bs, h0, hts, h1, hid, h2, h5, hlen,
    hdata, hf.symm⟩

theorem wrapSub_eq_sub {a b : Nat} (hba : b ≤ a) (ha : a < 2 ^ 64) :
    wrapSub a b = a - b := by
  unfold wrapSub
  have hp : (2 : Nat) ^ 64 = 18446744073709551616 := by norm_num
  have h1 : 2 ^ 64 + a - b = 2 ^ 64 + (a - b) := by omega
  rw [h1, Nat.add_mod_left]
  exact Nat.mod_eq_of_lt (by omega)

theorem i64_of_lt {n : Nat} (h : n < 2 ^ 63) : i64 n = n := by
  unfold i64
  have h64 : n < 2 ^ 64 := by
    have : (2 : Nat) ^ 63 < 2 ^ 64 := by norm_num
    omega
  rw [Nat.mod_eq_of_lt h64, if_pos h]

theorem i64wrap_of {z : Int} (h0 : 0 ≤ z) (h : z < 2 ^ 63) :
    i64wrap z = z := by
  unfold i64wrap
  have hmod : (z + 2 ^ 63) % 2 ^ 64 = z + 2 ^ 63 :=
    Int.emod_eq_of_lt (by omega) (by omega)
  rw [hmod]
  omega

theorem goSleepNs_eq {d : Nat} (h : d * 1000 < 2 ^ 63) :
    goSleepNs d = (d : Int) * 1000 := by
  have hd : d < 2 ^ 63 := by omega
  unfold goSleepNs
  rw [i64_of_lt hd]
  have h2 : (d : Int) * 1000 < 2 ^ 63 := by exact_mod_cast h
  exact i64wrap_of (by positivity) h2

theorem runPass_head (s : Nat → Bool) (p prev idx : Nat) (f : CANFrame)
    (rest : List CANFrame) :
    ((runPass s p prev idx (f :: rest)).1).head? =
      some ⟨p, idx,
            if idx = 0 then 0 else goSleepNs (wrapSub f.Timestamp prev),
            f.ID⟩ := by
  cases h : s idx <;> simp [runPass, h]

theorem runPass_snd_none {s : Nat → Bool} (hs : ∀ i, s i = true) (p : Nat) :
    ∀ (fs : List CANFrame) (prev idx : Nat),
      (runPass s p prev idx fs).2 = none := by
  intro fs
  induction fs with
  | nil => intro prev idx; simp [runPass]
  | cons f rest ih => intro prev idx; simp [runPass, hs idx, ih]

theorem runPass_get_succ {s : Nat → Bool} (hs : ∀ i, s i = true) (p : Nat) :
    ∀ (fs : List CANFrame) (prev idx n : Nat) (g f : CANFrame),
      fs.get? n = some g → fs.get? (n + 1) = some f →
      ((runPass s p prev idx fs).1).get? (n + 1) =
        some ⟨p, idx + n + 1,
              goSleepNs (wrapSub f.Timestamp g.Timestamp), f.ID⟩ := by
  intro fs
  induction fs with
  | nil => intro prev idx n g f hg _; simp at hg
  | cons f0 rest ih =>
    intro prev idx n g f hg hf
    cases n with
    | zero =>
      simp at hg
      subst hg
      simp only [List.get?_cons_succ] at hf
      cases rest with
      | nil => simp at hf
      | cons f1 rest' =>
        simp at hf
        subst hf
        simp [runPass, hs idx, hs (idx + 1)]
    | succ n' =>
      simp only [List.get?_cons_succ] at hg hf
      have h2 := ih f0.Timestamp (idx + 1) n' g f hg hf
      simp only [runPass, hs idx, if_pos rfl, if_true]
      rw [List.get?_cons_succ] at *
      rw [h2]
      congr 2
      omega

theorem runPass_mem_pass (s : Nat → Bool) (p : Nat) :
    ∀ (fs : List CANFrame) (prev idx : Nat) (t : Tx),
      t ∈ (runPass s p prev idx fs).1 → t.pass = p ∧ idx ≤ t.idx := by
  intro fs
  induction fs with
  | nil => intro prev idx t ht; simp [runPass] at ht
  | cons f rest ih =>
    intro prev idx t ht
    cases h : s idx with
    | false =>
      simp [runPass, h] at ht
      subst ht
      exact ⟨rfl, le_refl _⟩
    | true =>
      simp [runPass, h] at ht
      rcases ht with rfl | ht
      · exact ⟨rfl, le_refl _⟩
      · obtain ⟨hp, hi⟩ := ih f.Timestamp (idx + 1) t ht
        exact ⟨hp, by omega⟩

theorem runPass_fail_inv (s : Nat → Bool) (p : Nat) :
    ∀ (fs : List CANFrame) (prev idx : Nat) (txs : List Tx) (k id : Nat),
      runPass s p prev idx fs = (txs, some (k, id)) →
      s k = false ∧ idx ≤ k ∧
      (∃ f, fs.get? (k - idx) = some f ∧ f.ID = id) ∧
      (∃ d, txs.getLast? = some ⟨p, k, d, id⟩) ∧
      (∀ t ∈ txs, t.pass = p ∧ t.idx ≤ k) := by
  intro fs
  induction fs with
  | nil => intro prev idx txs k id h; simp [runPass] at h
  | cons f0 rest ih =>
    intro prev idx txs k id h
    cases hs : s idx with
    | false =>
      simp [runPass, hs] at h
      obtain ⟨htxs, hk, hid⟩ := h
      subst htxs; subst hk; subst hid
      refine ⟨hs, le_refl _, ⟨f0, by simp, rfl⟩, ⟨_, rfl⟩, ?_⟩
      intro t ht
      simp at ht
      subst ht
      exact ⟨rfl, le_refl _⟩
    | true =>
      simp only [runPass, hs, if_true] at h
      rw [Prod.ext_iff] at h
      obtain ⟨htxs, hres⟩ := h
      simp only at htxs hres
      cases hr : runPass s p f0.Timestamp (idx + 1) rest with
      | mk txs' res =>
        rw [hr] at htxs hres
        simp only at htxs hres
        subst hres
        obtain ⟨h1, h2, ⟨f, hgf, hfid⟩, ⟨d, hlast⟩, hmem⟩ :=
          ih f0.Timestamp (idx + 1) txs' k id (by rw [hr])
        subst htxs
        refine ⟨h1, by omega, ⟨f, ?_, hfid⟩, ⟨d, ?_⟩, ?_⟩
        · have hk : k - idx = (k - (idx + 1)) + 1 := by omega
          rw [hk, List.get?_cons_succ]
          exact hgf
        · cases txs' with
          | nil => simp at hlast
          | cons t0 ts' => rw [List.getLast?_cons_cons]; exact hlast
        · intro t ht
          simp at ht
          rcases ht with rfl | ht
          · refine ⟨rfl, ?_⟩
            show idx ≤ k
            omega
          · exact hmem t ht

theorem replayLoop_fail_inv (s : Nat → Nat → Bool) (fs : List CANFrame)
    (loop : Bool) :
    ∀ (fuel pass : Nat) (txs : List Tx) (k id : Nat),
      replayLoop s fs loop fuel pass = (txs, .sendFail k id) →
      ∃ p, pass ≤ p ∧ s p k = false ∧
        (∃ f, fs.get? k = some f ∧ f.ID = id) ∧
        (∃ d, txs.getLast? = some ⟨p, k, d, id⟩) ∧
        (∀ t ∈ txs, t.pass < p ∨ (t.pass = p ∧ t.idx ≤ k)) := by
  intro fuel
  induction fuel with
  | zero => intro pass txs k id h; simp [replayLoop] at h
  | succ fuel ih =>
    intro pass txs k id h
    rw [replayLoop] at h
    cases hr : runPass (s pass) pass 0 0 fs with
    | mk ptxs res =>
      rw [hr] at h
      cases res with
      | some ki =>
        cases ki with
        | mk k' id' =>
          simp only at h
          rw [Prod.ext_iff] at h
          obtain ⟨htxs, hout⟩ := h
          simp only at htxs hout
          cases hout
          subst htxs
          obtain ⟨h1, _, ⟨f, hgf, hfid⟩, ⟨d, hlast⟩, hmem⟩ :=
            runPass_fail_inv (s pass) pass fs 0 0 ptxs k id hr
          refine ⟨pass, le_refl _, h1, ⟨f, by simpa using hgf, hfid⟩,
            ⟨d, hlast⟩, ?_⟩
          intro t ht
          exact Or.inr (hmem t ht)
      | none =>
        simp only at h
        cases loop with
        | false => simp at h
        | true =>
          simp only [if_true] at h
          cases hr2 : replayLoop s fs true fuel (pass + 1) with
          | mk txs2 out2 =>
            rw [hr2] at h
            rw [Prod.ext_iff] at h
            obtain ⟨htxs, hout⟩ := h
            simp only at htxs hout
            subst hout
            obtain ⟨p, hp, h1, hgf, ⟨d, hlast⟩, hmem⟩ :=
              ih (pass + 1) txs2 k id hr2
            subst htxs
            refine ⟨p, by omega, h1, hgf, ⟨d, ?_⟩, ?_⟩
            · cases txs2 with
              | nil => simp at hlast
              | cons t0 ts' =>
                rw [List.getLast?_append_cons]
                exact hlast
            · intro t ht
              rw [List.mem_append] at ht
              rcases ht with ht | ht
              · have ht' : t ∈ (runPass (s pass) pass 0 0 fs).1 := by
                  rw [hr]; exact ht
                obtain ⟨hp2, _⟩ := runPass_mem_pass (s pass) pass fs 0 0 t ht'
                exact Or.inl (by omega)
              · exact hmem t ht

theorem replayLoop_true_ne_ok (s : Nat → Nat → Bool) (fs : List CANFrame) :
    ∀ (fuel pass : Nat),
      (replayLoop s fs true fuel pass).2 ≠ ReplayOutcome.ok := by
  intro fuel
  induction fuel with
  | zero => intro pass; simp [replayLoop]
  | succ fuel ih =>
    intro pass
    rw [replayLoop]
    cases hr : runPass (s pass) pass 0 0 fs with
    | mk ptxs res =>
      cases res with
      | some ki => cases ki; simp
      | none => simpa using ih (pass + 1)

/-! ## Claim theorems -/

/-- C9: identifier parsing strips an optional `0x` prefix and leading
zeros, then parses the rest as base-16, so `"0x0005F4"`, `"5F4"` and
`"05f4"` all parse to identifier 0x5F4 (= 1524) and `"00000000"` parses
to identifier 0. -/
theorem claim9_identifier_normalisation :
    parseCANID "0x0005F4" = some 1524 ∧
    parseCANID "5F4" = some 1524 ∧
    parseCANID "05f4" = some 1524 ∧
    parseCANID "00000000" = some 0 := by
  refine ⟨by decide, by decide, by decide, by decide⟩

/-- C7: for an empty trace, `replayFrames` fails with the
"no frames to replay" error before any transmission attempt or timed
sleep takes place: no `Publish` call (and hence no preceding sleep) is
recorded, whatever the transport, loop flag and fuel. -/
theorem claim7_empty_trace_rejected :
    ∀ (sendOk : Nat → Nat → Bool) (loop : Bool) (fuel : Nat),
      replayFrames sendOk [] loop fuel = ([], .noFrames) := by
  intro sendOk loop fuel
  simp [replayFrames]

/-- C1 is a code bug: a data row whose length field implies reading a
payload column beyond the columns actually present is NOT skipped with a
reason naming the column — `parseCANFrame` indexes past the end of the
record and panics, and the panic aborts the whole `parseCSV` run.  Here
the row passes the `len(record) >= 12` guard with exactly 12 columns
(D1–D6 present) while declaring length 8, so the loop reads
`record[12]`, which is out of range.  (The other half of the claim, a
present payload column that does not decode to one hex byte, does fail
the row with the column named; the crash shown here falsifies the
claim's universal safety statement.) -/
theorem claim1_oob_length_crashes :
    parseCANFrame
        ["100", "5F4", "false", "Rx", "0", "8",
         "00", "11", "22", "33", "44", "55"] =
      .crash "index out of range" ∧
    parseCSV
        [["Time", "ID", "Extended", "Dir", "Bus", "Length",
          "D1", "D2", "D3", "D4", "D5", "D6"],
         ["100", "5F4", "false", "Rx", "0", "8",
          "00", "11", "22", "33", "44", "55"]] =
      .crash "index out of range" := by
  refine ⟨by decide, by decide⟩

/-- C2: the scheduler sends the first frame of a pass with zero delay,
and before the frame at index `n + 1` of a fully transmitted pass it
waits exactly `timestamp[n+1] - timestamp[n]` microseconds (recorded
here in nanoseconds, i.e. × 1000, as the code converts the microsecond
delta to a `time.Duration`; the bound keeps the conversion inside
`int64` range).  In particular the 3-frame trace with timestamps
`[100, 150, 400]` produces delays `[0, 50µs, 250µs]` = `[0, 50000ns,
250000ns]` between consecutive transmissions. -/
theorem claim2_delta_timing :
    (∀ (s : Nat → Bool) (p prev : Nat) (f : CANFrame)
       (rest : List CANFrame),
       ((runPass s p prev 0 (f :: rest)).1).head? = some ⟨p, 0, 0, f.ID⟩) ∧
    (∀ (s : Nat → Bool) (p : Nat) (fs : List CANFrame) (n : Nat)
       (g f : CANFrame), (∀ i, s i = true) →
       fs.get? n = some g → fs.get? (n + 1) = some f →
       g.Timestamp ≤ f.Timestamp → f.Timestamp < 2 ^ 64 →
       (f.Timestamp - g.Timestamp) * 1000 < 2 ^ 63 →
       ((runPass s p 0 0 fs).1).get? (n + 1) =
         some ⟨p, n + 1,
               ((f.Timestamp - g.Timestamp : Nat) : Int) * 1000, f.ID⟩) ∧
    replayFrames (fun _ _ => true)
        [⟨100, 1, false, [], 0⟩, ⟨150, 2, false, [], 0⟩,
         ⟨400, 3, false, [], 0⟩] false 1 =
      ([⟨0, 0, 0, 1⟩, ⟨0, 1, 50000, 2⟩, ⟨0, 2, 250000, 3⟩], .ok) := by
  refine ⟨?_, ?_, by decide⟩
  · intro s p prev f rest
    rw [runPass_head]
    simp
  · intro s p fs n g f hs hg hf hle h64 hns
    have h := runPass_get_succ hs p fs 0 0 n g f hg hf
    rw [h, wrapSub_eq_sub hle h64, goSleepNs_eq hns]
    norm_num

/-- C2 witness: the general conjuncts applied to a concrete 2-frame
trace with timestamps 100 and 150. -/
theorem claim2_delta_timing_check :
    ((runPass (fun _ => true) 0 0 0
        [⟨100, 1, false, [], 0⟩, ⟨150, 2, false, [], 0⟩]).1).head? =
      some ⟨0, 0, 0, 1⟩ ∧
    ((runPass (fun _ => true) 0 0 0
        [⟨100, 1, false, [], 0⟩, ⟨150, 2, false, [], 0⟩]).1).get? 1 =
      some ⟨0, 1, 50000, 2⟩ := by
  constructor
  · exact claim2_delta_timing.1 (fun _ => true) 0 0 ⟨100, 1, false, [], 0⟩
      [⟨150, 2, false, [], 0⟩]
  · have h := claim2_delta_timing.2.1 (fun _ => true) 0
      [⟨100, 1, false, [], 0⟩, ⟨150, 2, false, [], 0⟩] 0
      ⟨100, 1, false, [], 0⟩ ⟨150, 2, false, [], 0⟩
      (fun _ => rfl) (by decide) (by decide) (by decide) (by decide)
      (by decide)
    simpa using h

/-- C3: a data row with fewer than 12 columns is skipped with a warning
recording its 1-based row number and the reason, the remaining rows are
still processed, and the short row itself never crashes or aborts the
parse; `parseCSV` numbers the first data row 2 because the header counts
as row 1. -/
theorem claim3_short_row_skipped :
    (∀ (r : List String) (rest : List (List String)) (n : Nat),
       r.length < 12 →
       processRows (r :: rest) n =
         match processRows rest (n + 1) with
         | .crash m => .crash m
         | .fail m => .fail m
         | .ok (fs, sk) => .ok (fs, (n, "insufficient columns") :: sk)) ∧
    (∀ (header r : List String) (rows : List (List String)),
       parseCSV (header :: r :: rows) = processRows (r :: rows) 2) := by
  constructor
  · intro r rest n h
    rw [processRows, if_pos h]
  · intro header r rows
    rw [parseCSV, if_neg (by simp)]
    rfl

/-- C3 witness: a 1-column row at data position 1 (reported as row 2)
is skipped with the "insufficient columns" warning; the trailing rows
are still parsed. -/
theorem claim3_short_row_skipped_check :
    processRows [["77"]] 2 = .ok ([], [(2, "insufficient columns")]) ∧
    parseCSV [["h1"], ["77"]] = .ok ([], [(2, "insufficient columns")]) := by
  have h1 := claim3_short_row_skipped.1 ["77"] [] 2 (by decide)
  have h2 := claim3_short_row_skipped.2 ["h1"] ["77"] []
  constructor
  · rw [h1]; rfl
  · rw [h2, h1]; rfl

/-- C8: with `loop=false` the scheduler returns success after exactly one
full pass (the whole event list is that one pass); with `loop=true`,
after a fully transmitted pass it restarts at index 0 for the next pass
— whose first frame is sent with zero delay, with no inter-loop gap
derived from the trace duration — and it never returns success: looping
ends only with a transmission failure (or, in this fuel-bounded model,
fuel exhaustion standing for running forever). -/
theorem claim8_loop_semantics :
    (∀ (sendOk : Nat → Nat → Bool) (frames : List CANFrame) (fuel : Nat),
       frames ≠ [] → (∀ i, sendOk 0 i = true) →
       replayFrames sendOk frames false (fuel + 1) =
         ((runPass (sendOk 0) 0 0 0 frames).1, .ok)) ∧
    (∀ (sendOk : Nat → Nat → Bool) (frames : List CANFrame)
       (fuel pass : Nat), (∀ i, sendOk pass i = true) →
       replayLoop sendOk frames true (fuel + 1) pass =
         ((runPass (sendOk pass) pass 0 0 frames).1 ++
            (replayLoop sendOk frames true fuel (pass + 1)).1,
          (replayLoop sendOk frames true fuel (pass + 1)).2)) ∧
    (∀ (s : Nat → Bool) (p prev : Nat) (f : CANFrame)
       (rest : List CANFrame),
       ((runPass s p prev 0 (f :: rest)).1).head? = some ⟨p, 0, 0, f.ID⟩) ∧
    (∀ (sendOk : Nat → Nat → Bool) (frames : List CANFrame) (fuel : Nat),
       (replayFrames sendOk frames true fuel).2 ≠ ReplayOutcome.ok) := by
  refine ⟨?_, ?_, ?_, ?_⟩
  · intro sendOk frames fuel hne hok
    rw [replayFrames, if_neg (by simpa [List.length_eq_zero] using hne)]
    rw [replayLoop]
    have h2 := runPass_snd_none hok 0 frames 0 0
    cases hr : runPass (sendOk 0) 0 0 0 frames with
    | mk txs res =>
      rw [hr] at h2
      simp only at h2
      subst h2
      simp
  · intro sendOk frames fuel pass hok
    rw [replayLoop]
    have h2 := runPass_snd_none hok pass frames 0 0
    cases hr : runPass (sendOk pass) pass 0 0 frames with
    | mk txs res =>
      rw [hr] at h2
      simp only at h2
      subst h2
      simp
  · intro s p prev f rest
    rw [runPass_head]
    simp
  · intro sendOk frames fuel
    cases frames with
    | nil => simp [replayFrames]
    | cons f rest =>
      rw [replayFrames, if_neg (by simp)]
      exact replayLoop_true_ne_ok sendOk (f :: rest) fuel 0

/-- C8 witness: the loop-semantics conjuncts applied to a concrete
2-frame trace and an always-succeeding transport. -/
theorem claim8_loop_semantics_check :
    (replayFrames (fun _ _ => true)
        [⟨100, 1, false, [], 0⟩, ⟨150, 2, false, [], 0⟩] false 1 =
      ((runPass ((fun _ _ => true : Nat → Nat → Bool) 0) 0 0 0
          [⟨100, 1, false, [], 0⟩, ⟨150, 2, false, [], 0⟩]).1, .ok)) ∧
    (replayLoop (fun _ _ => true)
        [⟨100, 1, false, [], 0⟩, ⟨150, 2, false, [], 0⟩] true 1 0 =
      ((runPass ((fun _ _ => true : Nat → Nat → Bool) 0) 0 0 0
          [⟨100, 1, false, [], 0⟩, ⟨150, 2, false, [], 0⟩]).1 ++
         (replayLoop (fun _ _ => true)
           [⟨100, 1, false, [], 0⟩, ⟨150, 2, false, [], 0⟩] true 0 1).1,
       (replayLoop (fun _ _ => true)
         [⟨100, 1, false, [], 0⟩, ⟨150, 2, false, [], 0⟩] true 0 1).2)) ∧
    ((runPass (fun _ => true) 7 0 0
        [⟨100, 9, false, [], 0⟩]).1).head? = some ⟨7, 0, 0, 9⟩ ∧
    (replayFrames (fun _ _ => true)
        [⟨100, 1, false, [], 0⟩, ⟨150, 2, false, [], 0⟩] true 3).2 ≠
      ReplayOutcome.ok :=
  ⟨claim8_loop_semantics.1 (fun _ _ => true) _ 0 (by decide) (fun _ => rfl),
   claim8_loop_semantics.2.1 (fun _ _ => true) _ 0 0 (fun _ => rfl),
   claim8_loop_semantics.2.2.1 (fun _ => true) 7 0 ⟨100, 9, false, [], 0⟩ [],
   claim8_loop_semantics.2.2.2 (fun _ _ => true) _ 3⟩

/-- C6: whenever `replayFrames` ends with the send-failure error naming
index `k` and identifier `id`, the frame at 0-based index `k` of the
trace really has identifier `id`, the failing attempt (in some pass `p`
on which the transport refused index `k`) is the very last `Publish`
call of the whole replay, and every call made lies in an earlier pass or
at an index `≤ k` of pass `p` — so no frame after `k` in that pass, no
frame of a later pass, and no retry of frame `k` is ever sent. -/
theorem claim6_send_failure_aborts :
    ∀ (sendOk : Nat → Nat → Bool) (frames : List CANFrame) (loop : Bool)
      (fuel : Nat) (txs : List Tx) (k id : Nat),
      replayFrames sendOk frames loop fuel = (txs, .sendFail k id) →
      (∃ f, frames.get? k = some f ∧ f.ID = id) ∧
      ∃ p, sendOk p k = false ∧
        (∃ d, txs.getLast? = some ⟨p, k, d, id⟩) ∧
        ∀ t ∈ txs, t.pass < p ∨ (t.pass = p ∧ t.idx ≤ k) := by
  intro sendOk frames loop fuel txs k id h
  rw [replayFrames] at h
  by_cases hfe : frames.length = 0
  · rw [if_pos hfe] at h
    simp [Prod.ext_iff] at h
  · rw [if_neg hfe] at h
    obtain ⟨p, _, hfail, hgf, hlast, hmem⟩ :=
      replayLoop_fail_inv sendOk frames loop fuel 0 txs k id h
    exact ⟨hgf, p, hfail, hlast, hmem⟩

/-- C6 witness: a transport that fails at pass 1, index 1, with
`loop=true`; the failing attempt on frame 1 (identifier 2) is the last
recorded `Publish` call. -/
theorem claim6_send_failure_aborts_check :
    (∃ f, ([⟨100, 1, false, [], 0⟩, ⟨150, 2, false, [], 0⟩] :
        List CANFrame).get? 1 = some f ∧ f.ID = 2) ∧
    ∃ p, (fun p i => !(p == 1 && i == 1) : Nat → Nat → Bool) p 1 = false ∧
      (∃ d, ([⟨0, 0, 0, 1⟩, ⟨0, 1, 50000, 2⟩, ⟨1, 0, 0, 1⟩,
              ⟨1, 1, 50000, 2⟩] : List Tx).getLast? = some ⟨p, 1, d, 2⟩) ∧
      ∀ t ∈ ([⟨0, 0, 0, 1⟩, ⟨0, 1, 50000, 2⟩, ⟨1, 0, 0, 1⟩,
              ⟨1, 1, 50000, 2⟩] : List Tx),
        t.pass < p ∨ (t.pass = p ∧ t.idx ≤ 1) :=
  claim6_send_failure_aborts (fun p i => !(p == 1 && i == 1))
    [⟨100, 1, false, [], 0⟩, ⟨150, 2, false, [], 0⟩] true 5
    [⟨0, 0, 0, 1⟩, ⟨0, 1, 50000, 2⟩, ⟨1, 0, 0, 1⟩, ⟨1, 1, 50000, 2⟩] 1 2
    (by decide)

/-- C10: every successfully parsed row yields a frame whose payload list
has exactly the declared length (even when that exceeds 8): the declared
length is the parsed `record[5]` value, bytes at indices
`0 .. min(length,8)-1` are the decoded payload columns `D1..D8` in
order, and any bytes at indices 8 and beyond are zero. -/
theorem claim10_payload_shape :
    ∀ (record : List String) (f : CANFrame),
      parseCANFrame record = .ok f →
      (∃ s5, record.get? 5 = some s5 ∧
         goParseUint digit10 10 8 s5 = some f.Length) ∧
      f.Data.length = f.Length ∧
      (∀ j, j < min f.Length 8 →
        ∃ s b, record.get? (6 + j) = some s ∧
          hexDecode1 (trimSuffixComma (goTrim s)) = some b ∧
          f.Data.get? j = some b) ∧
      (∀ j, 8 ≤ j → j < f.Length → f.Data.get? j = some 0) := by
  intro record f h
  obtain ⟨s0, s1, s2, s5, ts, v, len, bs, h0, hts, h1, hid, h2, h5, hlen,
    hdata, hf⟩ := parseCANFrame_ok_inv h
  subst hf
  have hbs : bs.length = min len 8 := parseDataAux_ok_length hdata
  refine ⟨⟨s5, h5, hlen⟩, ?_, ?_, ?_⟩
  · show (bs ++ List.replicate (len - min len 8) 0).length = len
    simp [hbs]
  · intro j hj
    have hj' : j < min len 8 := hj
    obtain ⟨s, b, hs, hb, hg⟩ := parseDataAux_ok_get hdata j hj'
    refine ⟨s, b, by simpa using hs, hb, ?_⟩
    show (bs ++ List.replicate (len - min len 8) 0).get? j = some b
    rw [List.get?_append (by rw [hbs]; exact hj')]
    exact hg
  · intro j h8 hlt
    have hlt' : j < len := hlt
    have hmin : min len 8 ≤ j := le_trans (min_le_right len 8) h8
    show (bs ++ List.replicate (len - min len 8) 0).get? j = some 0
    rw [List.get?_append_right (by rw [hbs]; exact hmin), hbs]
    have hjj : j - min len 8 < len - min len 8 := by omega
    simp [List.get?_eq_getElem?, hjj]

/-- C10 witness: a row declaring length 9 with eight well-formed payload
columns parses to a frame whose 9-byte payload carries the eight decoded
column bytes followed by a zero. -/
theorem claim10_payload_shape_check :
    ([10, 11, 12, 13, 26, 27, 28, 29, 0] : List Nat).length = 9 ∧
    ([10, 11, 12, 13, 26, 27, 28, 29, 0] : List Nat).get? 8 = some 0 := by
  have h := claim10_payload_shape
    ["100", "5F4", "false", "Rx", "0", "9",
     "0a", "0b", "0c", "0d", "1a", "1b", "1c", "1d"]
    ⟨100, 1524, false, [10, 11, 12, 13, 26, 27, 28, 29, 0], 9⟩ (by decide)
  exact ⟨h.2.1, h.2.2.2 8 (by decide) (by decide)⟩

/-- C4 counterexample: a 14-column row declaring length 9 whose eight
payload columns are all well-formed is NOT rejected with a row-level
parser error — `parseCANFrame` accepts it. -/
theorem claim4_overlong_length_accepted :
    parseCANFrame ["100", "1A", "false", "Rx", "0", "9",
        "00", "11", "22", "33", "44", "55", "66", "77"] =
      .ok ⟨100, 26, false, [0, 17, 34, 51, 68, 85, 102, 119, 0], 9⟩ := by
  decide

/-- C4 (amended): a data row whose length column parses to `len > 8`
while all eight payload columns are present and well-formed is accepted,
not rejected: the frame keeps the declared length `len`, its payload has
`len` bytes — the eight decoded column bytes followed by `len - 8`
zeros — and no row-level error is produced. -/
theorem claim4_amended_accepts_declared_length :
    ∀ (record : List String) (s0 s1 s2 s5 : String) (ts v len : Nat)
      (bs : List Nat),
      record.get? 0 = some s0 → goParseUint digit10 10 64 s0 = some ts →
      record.get? 1 = some s1 → parseCANID s1 = some v →
      record.get? 2 = some s2 → record.get? 5 = some s5 →
      goParseUint digit10 10 8 s5 = some len → 8 < len →
      parseDataAux record 0 8 = .ok bs →
      parseCANFrame record =
        .ok ⟨ts, v, lowerStr s2 == "true",
             bs ++ List.replicate (len - 8) 0, len⟩ := by
  intro record s0 s1 s2 s5 ts v len bs h0 hts h1 hid h2 h5 hlen h8 hdata
  have hmin : min len 8 = 8 := Nat.min_eq_right (by omega)
  have h := parseCANFrame_eq_ok h0 hts h1 hid h2 h5 hlen
    (by rw [hmin]; exact hdata)
  rw [h, hmin]

/-- C4 witness: the amended statement applied to a concrete row with
declared length 10. -/
theorem claim4_amended_accepts_declared_length_check :
    parseCANFrame ["200", "1A", "false", "Rx", "0", "10",
        "00", "11", "22", "33", "44", "55", "66", "77"] =
      .ok ⟨200, 26, false,
           [0, 17, 34, 51, 68, 85, 102, 119] ++ List.replicate 2 0, 10⟩ :=
  claim4_amended_accepts_declared_length
    ["200", "1A", "false", "Rx", "0", "10",
     "00", "11", "22", "33", "44", "55", "66", "77"]
    "200" "1A" "false" "10" 200 26 10 [0, 17, 34, 51, 68, 85, 102, 119]
    rfl (by decide) rfl (by decide) rfl rfl (by decide) (by decide)
    (by decide)

/-- C5 counterexample: a standard (non-extended) row with identifier
`"FFF"` = 4095, which exceeds the 11-bit width 2^11 = 2048, is accepted
into the trace rather than reported as a parser error. -/
theorem claim5_wide_standard_id_accepted :
    parseCANFrame ["7", "FFF", "false", "Rx", "0", "1",
        "AB", "00", "00", "00", "00", "00"] =
      .ok ⟨7, 4095, false, [171], 1⟩ ∧ 2 ^ 11 ≤ 4095 :=
  ⟨by decide, by decide⟩

/-- C5 (amended): identifier validation is exactly "parse as base-16
into 32 bits": any parsed identifier is below 2^32, a row whose
identifier column parses (together with the other stages) is accepted
with that identifier regardless of the 11-bit/29-bit width implied by
the extended flag, and a row whose identifier column fails the base-16
32-bit parse is rejected with the "invalid CAN ID" row error.  No
11-bit or 29-bit width check is performed. -/
theorem claim5_amended_id_32bit_only :
    (∀ (s : String) (v : Nat), parseCANID s = some v → v < 2 ^ 32) ∧
    (∀ (record : List String) (s0 s1 s2 s5 : String) (ts v len : Nat)
       (bs : List Nat),
       record.get? 0 = some s0 → goParseUint digit10 10 64 s0 = some ts →
       record.get? 1 = some s1 → parseCANID s1 = some v →
       record.get? 2 = some s2 → record.get? 5 = some s5 →
       goParseUint digit10 10 8 s5 = some len →
       parseDataAux record 0 (min len 8) = .ok bs →
       parseCANFrame record =
         .ok ⟨ts, v, lowerStr s2 == "true",
              bs ++ List.replicate (len - min len 8) 0, len⟩) ∧
    (∀ (record : List String) (s0 s1 : String) (ts : Nat),
       record.get? 0 = some s0 → goParseUint digit10 10 64 s0 = some ts →
       record.get? 1 = some s1 → parseCANID s1 = none →
       parseCANFrame record = .fail "invalid CAN ID") := by
  refine ⟨?_, ?_, ?_⟩
  · intro s v h
    exact goParseUint_lt (by simpa [parseCANID] using h)
  · intro record s0 s1 s2 s5 ts v len bs h0 hts h1 hid h2 h5 hlen hdata
    exact parseCANFrame_eq_ok h0 hts h1 hid h2 h5 hlen hdata
  · intro record s0 s1 ts h0 hts h1 hid
    rw [List.get?_eq_getElem?] at h0 h1
    simp [parseCANFrame, getCol, goOpt, h0, hts, h1, hid]

/-- C5 witness: the amended statement applied to concrete rows — an
out-of-width 12-bit identifier accepted on a standard frame, and a
non-hex identifier rejected. -/
theorem claim5_amended_id_32bit_only_check :
    (4095 : Nat) < 2 ^ 32 ∧
    parseCANFrame ["8", "FFF", "false", "Rx", "0", "0"] =
      .ok ⟨8, 4095, false, [], 0⟩ ∧
    parseCANFrame ["9", "ZZ", "true", "Rx", "0", "0"] =
      .fail "invalid CAN ID" := by
  refine ⟨claim5_amended_id_32bit_only.1 "FFF" 4095 (by decide), ?_, ?_⟩
  · have h := claim5_amended_id_32bit_only.2.1
      ["8", "FFF", "false", "Rx", "0", "0"] "8" "FFF" "false" "0"
      8 4095 0 [] rfl (by decide) rfl (by decide) rfl rfl (by decide)
      (by decide)
    simpa using h
  · exact claim5_amended_id_32bit_only.2.2
      ["9", "ZZ", "true", "Rx", "0", "0"] "9" "ZZ" 9 rfl (by decide) rfl
      (by decide)
